import Mathlib

/-!
# Verification of the mnote note store, search index and lock manager

This file is a shallow embedding of the core of the `mnote` personal
note-taking tool (note store on the filesystem, derived SQLite/FTS5 search
index, cooperative lock manager) together with proofs about it.

Modelling conventions, fixed once and used throughout:

* The filesystem is a `Disk`: a list of existing book directories (relative
  slash-delimited names under the store root) plus a list of note files
  (`book`, `filename`, `content`).  The store root (`MNOTE_HOME`) is the
  fixed string `mnoteHome`.
* The SQLite database is an `Index`: the `notes` table rows, plus the
  AUTOINCREMENT counter (`nextId`).  The `notes_fts` full-text table is kept
  row-for-row in sync with `notes` by the source code (every write touches
  both inside one transaction, keyed by the same rowid), so the two tables
  are modelled as the single list `records`.  The one observable difference
  (the source's update branch refreshes `path` only in `notes_fts`, not in
  `notes`) is noted at `indexNote`; no claim observes it.
* Whether the database file `mnote.db` exists is the `dbFile` flag of a
  `World`; `getDB` creates the file (and the empty schema) when absent,
  which is modelled by `getDBIdx`.
* A call into SQLite that throws (index write failure) is modelled by the
  boolean oracle `idxOk` passed to each mutating operation: when it is
  `false` the index transaction fails and — since every index write happens
  inside one SQLite transaction — the index is left unchanged, while the
  source code catches and logs the error.
* `gray-matter` frontmatter parsing of `tags` is modelled as an oracle
  `fm : String → Option (List String)` giving the parsed tag list of a
  content string (`none` when no frontmatter `tags` key is present).
* The current date (`YYYY-MM-DD`) is passed explicitly as `today`;
  wall-clock time for the lock manager is an explicit `Int` of epoch
  milliseconds, and the set of live processes is an oracle `Nat → Bool`.
* FTS5 `MATCH` is modelled by `ftsMatch` for exactly the query shapes
  `findNotes` produces (a bare-word query with a trailing `*`, and a query
  containing explicit double quotes, treated as a phrase); the `unicode61`
  tokenizer is modelled as maximal alphanumeric runs, lowercased, which
  agrees with it on ASCII data.  `ORDER BY rank` is abstracted to table
  order (no claim depends on relevance ordering); `ORDER BY filename` and
  JavaScript `localeCompare` sorting are modelled by lexicographic
  character-code order, which agrees on the ASCII names used here.
-/

/-! ## Generic string and list helpers -/

/-- `leadsWith needle hay` is true when `needle` is an initial segment of
`hay` (used for JS `String.startsWith`, SQL `LIKE` patterns and FTS term
matching). -/
def leadsWith [BEq α] : List α → List α → Bool
  | [], _ => true
  | _ :: _, [] => false
  | a :: as, b :: bs => a == b && leadsWith as bs

/-- `containsSeq needle hay`: `needle` occurs as a contiguous run inside
`hay` (SQL `LIKE '%x%'`, JS `String.includes`, FTS phrase containment). -/
def containsSeq [BEq α] (needle : List α) : List α → Bool
  | [] => needle.isEmpty
  | a :: rest => leadsWith needle (a :: rest) || containsSeq needle rest

/-- JS `hay.includes(needle)` / SQL `LIKE '%needle%'` on strings. -/
def strHas (hay needle : String) : Bool := containsSeq needle.data hay.data

/-- JS `s.startsWith(p)`. -/
def strStarts (s p : String) : Bool := leadsWith p.data s.data

/-- JS `s.endsWith(suf)`. -/
def strEnds (s suf : String) : Bool := leadsWith suf.data.reverse s.data.reverse

/-- JS `s.includes(c)` / `String.prototype.indexOf` on one character. -/
def strHasChar (s : String) (c : Char) : Bool := s.data.any (· == c)

/-- `s.drop n` on code points (kernel-reducible replacement for byte-based
`String.drop`). -/
def strDrop (s : String) (n : Nat) : String := String.mk (s.data.drop n)

/-- Split on a single character; `splitOnChar c s` matches JS
`s.split(c)` (a trailing separator yields a final empty segment). -/
def splitOnChar (c : Char) : List Char → List (List Char)
  | [] => [[]]
  | a :: rest =>
    let r := splitOnChar c rest
    if a = c then [] :: r
    else
      match r with
      | [] => [[a]]
      | h :: t => (a :: h) :: t

/-- JS `String.prototype.trim` (ASCII whitespace). -/
def strTrim (s : String) : String :=
  String.mk ((s.data.dropWhile Char.isWhitespace).reverse.dropWhile Char.isWhitespace).reverse

/-- Lexicographic order on character lists; models JS `localeCompare`-based
sorting for the ASCII names appearing in this development. -/
def charsLe : List Char → List Char → Bool
  | [], _ => true
  | _ :: _, [] => false
  | a :: as, b :: bs => if a = b then charsLe as bs else decide (a < b)

/-- String order used for directory-listing sorts. -/
def strLe (a b : String) : Bool := charsLe a.data b.data

/-- Ordered insert used by `sortBy`. -/
def insertBy (le : α → α → Bool) (x : α) : List α → List α
  | [] => [x]
  | y :: ys => if le x y then x :: y :: ys else y :: insertBy le x ys

/-- Insertion sort; models `Array.prototype.sort` / SQL `ORDER BY` for the
comparators used here. -/
def sortBy (le : α → α → Bool) (l : List α) : List α :=
  l.foldr (insertBy le) []

/-! ## slugify and title derivation (store module) -/

/-- Characters kept by the `[^a-z0-9\s-]` filter of `slugify`. -/
def isSlugKeep (c : Char) : Bool :=
  (decide ('a' ≤ c) && decide (c ≤ 'z')) || c.isDigit || c.isWhitespace || c == '-'

/-- Collapse runs of `'-'` to a single `'-'` (the "remove consecutive
hyphens" regex step of `slugify`). -/
def collapseHy : List Char → List Char
  | [] => []
  | [c] => [c]
  | a :: b :: rest =>
    if a = '-' && b = '-' then collapseHy (b :: rest)
    else a :: collapseHy (b :: rest)

/-- Drop trailing characters satisfying `p`. -/
def dropTrail (p : Char → Bool) (l : List Char) : List Char :=
  (l.reverse.dropWhile p).reverse

/-- `slugify` from the store module: lowercase, trim, strip characters
outside `[a-z0-9\s-]`, turn whitespace runs into single hyphens, collapse
hyphen runs, strip leading/trailing hyphens.  The source first applies NFD
normalization and strips combining diacritical marks; on the ASCII strings
of this development that step is the identity, and non-ASCII letters are
removed by the same character filter as in the source. -/
def slugify (text : String) : String :=
  let l1 := text.data.map Char.toLower
  let l2 := dropTrail Char.isWhitespace (l1.dropWhile Char.isWhitespace)
  let l3 := l2.filter isSlugKeep
  let l4 := l3.map (fun c => if c.isWhitespace then '-' else c)
  let l5 := collapseHy l4
  String.mk (dropTrail (fun c => c = '-') (l5.dropWhile (fun c => c = '-')))

/-- The first line of a content string: `content.split('\n')[0]`. -/
def firstLineOf (s : String) : String := String.mk (s.data.takeWhile (fun c => !(c == '\n')))

/-- The character class `[\s#\-\*]` stripped from the head of the first
line in `addNote`'s title derivation. -/
def isMarkupChar (c : Char) : Bool :=
  c.isWhitespace || c == '#' || c == '-' || c == '*'

/-- Title derivation of `addNote` when no (truthy) explicit title is given:
take the first line of the content, trim it, strip leading markup
characters, trim again; fall back to `"untitled"` when the result is
empty.  Note that only the text before the first newline is consulted. -/
def derivedTitle (content : String) : String :=
  let clean := strTrim (String.mk ((strTrim (firstLineOf content)).data.dropWhile isMarkupChar))
  if clean == "" then "untitled" else clean

/-- Refinement comparison only — this definition follows the SPEC's words
("explicit > first non-empty content line stripped of leading markup
characters > untitled"), not the source, and is used to compare the two. -/
def specDeriveTitle (content : String) : String :=
  match ((splitOnChar '\n' content.data).map String.mk).find? (fun l => !(strTrim l == "")) with
  | some l =>
    let c := strTrim (String.mk ((strTrim l).data.dropWhile isMarkupChar))
    if c == "" then "untitled" else c
  | none => "untitled"

/-! ## The search index (`notes` + `notes_fts`, modelled as one table) -/

/-- One row of the `notes` table (the `notes_fts` row with the same rowid
carries `book`, `filename`, `path`, `content`; see the module comment). -/
structure IndexRecord where
  id : Nat
  book : String
  filename : String
  path : String
  content : String
  tags : Option String
deriving DecidableEq, Repr

/-- The SQLite database: rows plus the AUTOINCREMENT counter. -/
structure Index where
  records : List IndexRecord
  nextId : Nat
deriving DecidableEq, Repr

/-- The freshly created schema (`initDB` on a new database file). -/
def emptyIndex : Index := { records := [], nextId := 1 }

/-- The `,tag1,tag2,` padded string stored by `indexNote` when the
frontmatter parser found a `tags` value (`none` = SQL NULL). -/
def tagsStrOf (parsedTags : Option (List String)) : Option String :=
  parsedTags.map (fun ts => "," ++ String.intercalate "," (ts.map strTrim) ++ ",")

/-- `indexNote(book, filename, content, path)` of the store module:
upsert keyed on `(book, filename)`.  On a hit the source's SQL UPDATE sets
`book`, `filename`, `content` and `tags` of the existing row (the `notes`
table keeps its old `path`; only the re-inserted `notes_fts` row gets the
new one — no claim observes that column, and all in-repo callers pass the
path the row already has), on a miss it inserts a fresh row with the next
AUTOINCREMENT id.  The frontmatter parse of `content` is the explicit
argument `parsedTags`. -/
def indexNote (idx : Index) (book filename content _path : String)
    (parsedTags : Option (List String)) : Index :=
  match idx.records.find? (fun r => r.book == book && r.filename == filename) with
  | some r0 =>
    { idx with
      records := idx.records.map (fun r =>
        if r.id == r0.id then
          { r with book := book, filename := filename, content := content,
                   tags := tagsStrOf parsedTags }
        else r) }
  | none =>
    { records := idx.records ++
        [{ id := idx.nextId, book := book, filename := filename, path := _path,
           content := content, tags := tagsStrOf parsedTags }],
      nextId := idx.nextId + 1 }

/-- `unindexNote(book, filename)`: look up the row by `(book, filename)`
and delete it (both tables) when present. -/
def unindexNote (idx : Index) (book filename : String) : Index :=
  match idx.records.find? (fun r => r.book == book && r.filename == filename) with
  | some r0 => { idx with records := idx.records.filter (fun r => !(r.id == r0.id)) }
  | none => idx

/-- `updateBookInDb(oldName, newName)` rewrites `book` on a selected row:
an exact match becomes `newName`; a row under `oldName + "/"` has that
prefix substituted (the source's `String.replace` rewrites the first
occurrence, which for the selected rows is the leading prefix). -/
def renameStr (oldName newName s : String) : String :=
  if s == oldName then newName
  else if strStarts s (oldName ++ "/") then newName ++ "/" ++ strDrop s (oldName.length + 1)
  else s

/-- Absolute path of a note file under the store root. -/
def mnoteHome : String := "/home/user/.mnote"

/-- `resolve(root, book, filename)`. -/
def notePath (book filename : String) : String :=
  mnoteHome ++ "/" ++ book ++ "/" ++ filename

/-- `updateBookInDb(oldName, newName)`: select the rows whose `book` is
`oldName` or starts with `oldName + "/"` and rewrite their `book` and
(reconstructed) `path`; other columns unchanged. -/
def updateBookInDb (idx : Index) (oldName newName : String) : Index :=
  { idx with
    records := idx.records.map (fun r =>
      if r.book == oldName || strStarts r.book (oldName ++ "/") then
        let newBook := renameStr oldName newName r.book
        { r with book := newBook, path := notePath newBook r.filename }
      else r) }

/-! ## FTS5 MATCH model -/

/-- The `unicode61` tokenizer restricted to ASCII: maximal alphanumeric
runs, lowercased. -/
def tokenizeAux : List Char → List Char → List String
  | [], acc => if acc.isEmpty then [] else [String.mk acc.reverse]
  | c :: cs, acc =>
    if c.isAlphanum then tokenizeAux cs (c.toLower :: acc)
    else if acc.isEmpty then tokenizeAux cs acc
    else String.mk acc.reverse :: tokenizeAux cs []

/-- Tokens of a column value. -/
def tokenize (s : String) : List String := tokenizeAux s.data []

/-- The four indexed columns of a `notes_fts` row. -/
def recordCols (r : IndexRecord) : List String := [r.book, r.filename, r.path, r.content]

/-- Some column holds the exact token `t`. -/
def colsHasTok (r : IndexRecord) (t : String) : Bool :=
  (recordCols r).any (fun c => (tokenize c).contains t)

/-- Some column holds a token with prefix `t` (FTS5 `t*`). -/
def colsHasTokPre (r : IndexRecord) (t : String) : Bool :=
  (recordCols r).any (fun c => (tokenize c).any (fun tok => leadsWith t.data tok.data))

/-- FTS5 `MATCH` for the query strings `findNotes` produces.  A query
containing a double quote is the user's keyword passed through verbatim
and is matched as an exact phrase (its tokens must occur consecutively in
a single column); otherwise `findNotes` appended `*`, so the final token
is a prefix query and any earlier tokens are exact terms, all combined
with implicit AND across the row.  An empty term list models the FTS5
syntax error on such queries, which `findNotes` catches, returning no
rows. -/
def ftsMatch (q : String) (r : IndexRecord) : Bool :=
  if strHasChar q '\"' then
    let phrase := tokenize q
    !phrase.isEmpty && (recordCols r).any (fun c => containsSeq phrase (tokenize c))
  else if strEnds q "*" then
    match (tokenize (String.mk q.data.dropLast)).reverse with
    | [] => false
    | last :: restRev => restRev.all (colsHasTok r) && colsHasTokPre r last
  else
    match tokenize q with
    | [] => false
    | ts => ts.all (colsHasTok r)

/-! ## findNotes (query layer) -/

/-- Rows returned by `findNotes`. -/
structure SearchResult where
  book : String
  filename : String
  content : String
deriving DecidableEq, Repr

/-- The `MATCH` argument built by `findNotes`: the keyword verbatim when it
contains an explicit double quote, otherwise with `*` appended. -/
def matchQueryOf (keyword : String) : String :=
  if strHasChar keyword '\"' then keyword else keyword ++ "*"

/-- The SQL `LIKE '%,tag,%'` test against the stored padded tags string
(NULL never matches). -/
def likeTags (tags : Option String) (tag : String) : Bool :=
  match tags with
  | none => false
  | some s => strHas s ("," ++ tag ++ ",")

/-- The optional `AND book = $book` filter (a JS-falsy empty string means
the filter is absent). -/
def bookFilterOk (bookF : Option String) (b : String) : Bool :=
  match bookF with
  | some bk => if bk == "" then true else b == bk
  | none => true

/-- The keyword-only query of `findNotes` (no truthy tag): `SELECT … FROM
notes_fts WHERE notes_fts MATCH $keyword [AND book = $book] ORDER BY
rank`; relevance order is abstracted to table order. -/
def findNotesNoTag (idx : Index) (keyword : String) (bookF : Option String) :
    List SearchResult :=
  let q := matchQueryOf keyword
  (idx.records.filter (fun r => ftsMatch q r && bookFilterOk bookF r.book)).map
    (fun r => { book := r.book, filename := r.filename, content := r.content })

/-- `findNotes(keyword, book?, tag?)` of the store module (the pure query
against the open database; the rebuild-when-`mnote.db`-is-absent path is a
`World`-level effect not needed by the claims below).  With a truthy tag
and a truthy keyword it joins the FTS match with the tags LIKE filter;
with a truthy tag and no keyword it scans `notes` by tags only, ordered by
filename; otherwise it is the pure FTS query. -/
def findNotes (idx : Index) (keyword : String) (bookF tagF : Option String) :
    List SearchResult :=
  match tagF with
  | some t =>
    if t == "" then findNotesNoTag idx keyword bookF
    else if keyword == "" then
      sortBy (fun a b => strLe a.filename b.filename)
        ((idx.records.filter (fun r => likeTags r.tags t && bookFilterOk bookF r.book)).map
          (fun r => { book := r.book, filename := r.filename, content := r.content }))
    else
      let q := matchQueryOf keyword
      (idx.records.filter (fun r =>
        ftsMatch q r && likeTags r.tags t && bookFilterOk bookF r.book)).map
        (fun r => { book := r.book, filename := r.filename, content := r.content })
  | none => findNotesNoTag idx keyword bookF

/-! ## The filesystem (note store) -/

/-- A note file on disk. -/
structure FsNote where
  book : String
  filename : String
  content : String
deriving DecidableEq, Repr

/-- The filesystem under the store root: existing book directories
(relative slash-delimited names) and note files. -/
structure Disk where
  dirs : List String
  notes : List FsNote
deriving DecidableEq, Repr

/-- What `getNotes` returns for one file. -/
structure NoteEntry where
  filename : String
  content : String
deriving DecidableEq, Repr

/-- The whole observable state: filesystem, whether `mnote.db` exists, and
the database contents. -/
structure World where
  disk : Disk
  dbFile : Bool
  index : Index
deriving DecidableEq, Repr

/-- `getDB()`'s view of the database: the stored contents when the file
exists, the freshly initialised empty schema when it does not (the call
creates the file either way). -/
def getDBIdx (w : World) : Index := if w.dbFile then w.index else emptyIndex

/-- The path-traversal guard of `getBookPath` (`resolve`/`relative`
check): the model forbids empty, absolute and `..`-containing book names,
which is what the source's check rejects for the names arising here. -/
def validBook (book : String) : Bool :=
  !(book == "") && !(strStarts book "/") &&
    !((splitOnChar '/' book.data).contains "..".data)

/-- `mkdir(path, { recursive: true })`: register the directory and every
ancestor, preserving already-existing ones. -/
def addDirs (dirs : List String) (book : String) : List String :=
  let comps := splitOnChar '/' book.data
  let pres := (List.range comps.length).map (fun i =>
    String.mk (List.intercalate ['/'] (comps.take (i + 1))))
  pres.foldl (fun ds d => if ds.contains d then ds else ds ++ [d]) dirs

/-- `getBookPath(book)`: validate the name, create the directory
(recursively); returns the updated directory list. -/
def getBookPath (dirs : List String) (book : String) : Except String (List String) :=
  if validBook book then .ok (addDirs dirs book)
  else .error ("Invalid book name: " ++ book ++ " attempts to traverse outside home directory")

/-- `getNotes(book)`: empty when the directory does not exist, otherwise
the `.md` entries with their contents, sorted by filename
(`localeCompare`). -/
def getNotes (d : Disk) (book : String) : List NoteEntry :=
  if d.dirs.contains book then
    sortBy (fun a b => strLe a.filename b.filename)
      ((d.notes.filter (fun n => n.book == book && strEnds n.filename ".md")).map
        (fun n => { filename := n.filename, content := n.content }))
  else []

/-- `getBooksRecursive()`: the existing book directories; the source's
depth-first traversal with per-level `localeCompare` sorting is modelled
by sorting the flat relative names (identical on the names used here; the
claims below depend only on the set of books). -/
def getBooksRecursive (d : Disk) : List String := sortBy strLe d.dirs

/-- `existsSync` on a would-be note path inside a book. -/
def existsFile (d : Disk) (book f : String) : Bool :=
  d.notes.any (fun n => n.book == book && n.filename == f)

/-! ## rebuildDB and checkDB -/

/-- The disk walk shared by `rebuildDB` and `checkDB`: every
`(book, note)` pair produced by `getBooksRecursive` + `getNotes`. -/
def entriesOf (d : Disk) : List (String × NoteEntry) :=
  ((getBooksRecursive d).map (fun b => (getNotes d b).map (fun n => (b, n)))).flatten

/-- One re-indexing step of `rebuildDB`'s nested loop. -/
def indexStep (fm : String → Option (List String)) (acc : Index)
    (e : String × NoteEntry) : Index :=
  indexNote acc e.1 e.2.filename e.2.content (notePath e.1 e.2.filename) (fm e.2.content)

/-- `rebuildDB()`: `DELETE FROM notes`, `DELETE FROM notes_fts`, reset the
AUTOINCREMENT sequence (so ids restart at 1), then walk every book and
re-index every note found on disk.  The previous index contents `_prev`
are discarded by the clearing step. -/
def rebuildDB (_prev : Index) (d : Disk) (fm : String → Option (List String)) : Index :=
  (entriesOf d).foldl (indexStep fm) emptyIndex

/-- The `book/filename` key string used by `checkDB`'s sets. -/
def strKey (b f : String) : String := b ++ "/" ++ f

/-- `checkDB`'s first loop: disk entries whose key is not in the database
key set. -/
def missingInDBOf (d : Disk) (idx : Index) : List (String × String) :=
  ((entriesOf d).filter
      (fun e => !((idx.records.map (fun r => strKey r.book r.filename)).any
        (fun s => s == strKey e.1 e.2.filename)))).map
    (fun e => (e.1, e.2.filename))

/-- `checkDB`'s second loop: database rows whose key is not in the disk
key set. -/
def missingOnDiskOf (d : Disk) (idx : Index) : List (String × String) :=
  (idx.records.filter
      (fun r => !(((entriesOf d).map (fun e => strKey e.1 e.2.filename)).any
        (fun s => s == strKey r.book r.filename)))).map
    (fun r => (r.book, r.filename))

/-- Result status of `checkDB`. -/
inductive DBStatus where
  | consistent
  | inconsistent
deriving DecidableEq, Repr

/-- Structured report of `checkDB`. -/
structure DBCheckResult where
  status : DBStatus
  missingOnDisk : List (String × String)
  missingInDB : List (String × String)
deriving DecidableEq, Repr

/-- `checkDB()` (pure query part): compare the `(book, filename)` key sets
of disk and database; consistent iff both difference lists are empty. -/
def checkDB (d : Disk) (idx : Index) : DBCheckResult :=
  { status :=
      if (missingInDBOf d idx).isEmpty && (missingOnDiskOf d idx).isEmpty then .consistent
      else .inconsistent,
    missingOnDisk := missingOnDiskOf d idx,
    missingInDB := missingInDBOf d idx }

/-- Running `checkDB()` on a `World`: it opens the database (`getDB`),
which creates `mnote.db` with the empty schema when it is absent, and then
only reads both sides. -/
def checkDBRun (w : World) : DBCheckResult × World :=
  (checkDB w.disk (getDBIdx w), { w with dbFile := true, index := getDBIdx w })

/-! ## Store mutations over a `World`

Each operation returns the source function's result (as `Except`, an
`.error` modelling a thrown exception) together with the state after the
call — JavaScript exceptions do not roll back filesystem effects already
performed, so the state is returned in every case.  `idxOk` is the oracle
for whether the SQLite index update inside the operation succeeds; when it
is `false` the source catches the error, logs a warning and continues, and
the failed transaction leaves the index unchanged. -/

/-- `AddNoteOptions.title`, after JS truthiness: `none` or `some ""` both
fall back to title derivation.  (The `template` option — reading a
template file and substituting date placeholders — is orthogonal to every
claim and is not modelled; all calls below pass no template.  The `tags`
option only rewrites the written content's frontmatter, which the
`fm` oracle already abstracts.) -/
def effectiveTitle (titleOpt : Option String) (content : String) : String :=
  match titleOpt with
  | some t => if t == "" then derivedTitle content else t
  | none => derivedTitle content

/-- The `-1`, `-2`, … collision loop body of `addNote`. -/
def chooseAux (ex : String → Bool) (dp slug : String) : Nat → Nat → String
  | counter, 0 => dp ++ "-" ++ slug ++ "-" ++ toString counter ++ ".md"
  | counter, fuel + 1 =>
    let cand := dp ++ "-" ++ slug ++ "-" ++ toString counter ++ ".md"
    if ex cand then chooseAux ex dp slug (counter + 1) fuel else cand

/-- `addNote`'s filename choice: `<date>-<slug>.md`, with `-N` appended
while the candidate exists.  The fuel (one more than the number of
existing files) is enough for the loop to find a free name, making the
fuel-exhaustion case unreachable. -/
def chooseFilename (ex : String → Bool) (dp slug : String) (fuel : Nat) : String :=
  let base := dp ++ "-" ++ slug ++ ".md"
  if ex base then chooseAux ex dp slug 1 fuel else base

/-- `addNote(book, content, options)`: create the book directory, derive
the title and slug, pick a collision-free dated filename, write the file,
then index it — an index failure is caught and logged, the write stands. -/
def addNote (w : World) (book content : String) (titleOpt : Option String)
    (fm : String → Option (List String)) (today : String) (idxOk : Bool) :
    Except String Unit × World :=
  match getBookPath w.disk.dirs book with
  | .error e => (.error e, w)
  | .ok dirs2 =>
    let disk1 : Disk := { w.disk with dirs := dirs2 }
    let slug := slugify (effectiveTitle titleOpt content)
    let filename := chooseFilename (fun f => existsFile disk1 book f) today slug
      (disk1.notes.length + 1)
    let disk2 : Disk := { disk1 with notes := disk1.notes ++ [⟨book, filename, content⟩] }
    if idxOk then
      (.ok (), { disk := disk2, dbFile := true,
                 index := indexNote (getDBIdx w) book filename content
                   (notePath book filename) (fm content) })
    else (.ok (), { w with disk := disk2 })

/-- `writeFile` on a note path: overwrite when the file exists, create it
otherwise. -/
def writeNote (notes : List FsNote) (book filename content : String) : List FsNote :=
  if notes.any (fun n => n.book == book && n.filename == filename) then
    notes.map (fun n =>
      if n.book == book && n.filename == filename then { n with content := content } else n)
  else notes ++ [⟨book, filename, content⟩]

/-- `updateNote(book, filename, content)`: rewrite the file, then re-index
it (failure caught and logged). -/
def updateNote (w : World) (book filename content : String)
    (fm : String → Option (List String)) (idxOk : Bool) :
    Except String Unit × World :=
  match getBookPath w.disk.dirs book with
  | .error e => (.error e, w)
  | .ok dirs2 =>
    let disk1 : Disk := { w.disk with dirs := dirs2 }
    let disk2 : Disk := { disk1 with notes := writeNote disk1.notes book filename content }
    if idxOk then
      (.ok (), { disk := disk2, dbFile := true,
                 index := indexNote (getDBIdx w) book filename content
                   (notePath book filename) (fm content) })
    else (.ok (), { w with disk := disk2 })

/-- `deleteNote(book, index)`: resolve the 1-based index in the sorted
listing, unlink the file, then remove it from the index (failure caught
and logged); returns the deleted filename. -/
def deleteNote (w : World) (book : String) (index : Nat) (idxOk : Bool) :
    Except String String × World :=
  let notes := getNotes w.disk book
  if index < 1 ∨ index > notes.length then
    (.error ("Invalid note index: " ++ toString index), w)
  else
    let note := notes.getD (index - 1) ⟨"", ""⟩
    match getBookPath w.disk.dirs book with
    | .error e => (.error e, w)
    | .ok dirs2 =>
      let disk1 : Disk := { w.disk with dirs := dirs2 }
      let disk2 : Disk := { disk1 with
        notes := disk1.notes.filter (fun n => !(n.book == book && n.filename == note.filename)) }
      if idxOk then
        (.ok note.filename, { disk := disk2, dbFile := true,
                              index := unindexNote (getDBIdx w) book note.filename })
      else (.ok note.filename, { w with disk := disk2 })

/-- `getNote(book, index)`: the note at the 1-based index, with its path
(the `getBookPath` call creates the directory as a side effect). -/
def getNote (w : World) (book : String) (index : Nat) :
    Except String (String × String × String) × World :=
  let notes := getNotes w.disk book
  if index < 1 ∨ index > notes.length then
    (.error ("Invalid note index: " ++ toString index), w)
  else
    let note := notes.getD (index - 1) ⟨"", ""⟩
    match getBookPath w.disk.dirs book with
    | .error e => (.error e, w)
    | .ok dirs2 =>
      (.ok (note.filename, note.content, notePath book note.filename),
       { w with disk := { w.disk with dirs := dirs2 } })

/-- `moveNote(book, index, targetBook)`: read the note, `addNote` its
content into the target (assigning a fresh dated filename), then
`deleteNote(book, index)` — the index is re-resolved against the source
book's listing as it is after the add. -/
def moveNote (w : World) (book : String) (index : Nat) (targetBook : String)
    (fm : String → Option (List String)) (today : String) (idxOk : Bool) :
    Except String Unit × World :=
  match getNote w book index with
  | (.error e, w1) => (.error e, w1)
  | (.ok note, w1) =>
    match addNote w1 targetBook note.2.1 none fm today idxOk with
    | (.error e, w2) => (.error e, w2)
    | (.ok _, w2) =>
      match deleteNote w2 book index idxOk with
      | (.error e, w3) => (.error e, w3)
      | (.ok _, w3) => (.ok (), w3)

/-- `renameBook(oldName, newName)`: `getBookPath(oldName)` (which creates
the directory when missing — making the following existence check pass
unconditionally), fail when the destination exists, physically rename the
directory subtree, then rewrite the affected index records (failure caught
and logged). -/
def renameBook (w : World) (oldName newName : String) (idxOk : Bool) :
    Except String Unit × World :=
  match getBookPath w.disk.dirs oldName with
  | .error e => (.error e, w)
  | .ok dirs2 =>
    let disk1 : Disk := { w.disk with dirs := dirs2 }
    if dirs2.contains oldName then
      if dirs2.contains newName then
        (.error ("Book \"" ++ newName ++ "\" already exists"), { w with disk := disk1 })
      else
        let disk2 : Disk :=
          { dirs := dirs2.map (renameStr oldName newName),
            notes := disk1.notes.map (fun n => { n with book := renameStr oldName newName n.book }) }
        if idxOk then
          (.ok (), { disk := disk2, dbFile := true,
                     index := updateBookInDb (getDBIdx w) oldName newName })
        else (.ok (), { w with disk := disk2 })
    else
      (.error ("Book \"" ++ oldName ++ "\" does not exist"), { w with disk := disk1 })

/-- Convenient success test on an operation result. -/
def exceptOk : Except String α → Bool
  | .ok _ => true
  | .error _ => false

/-- Sum view of `Except`, only used to decide equality of results. -/
def exceptToSum : Except ε α → ε ⊕ α
  | .error e => .inl e
  | .ok a => .inr a

instance [DecidableEq ε] [DecidableEq α] : DecidableEq (Except ε α) := fun a b =>
  decidable_of_iff (exceptToSum a = exceptToSum b)
    (by cases a <;> cases b <;> simp [exceptToSum])

/-- The empty store: no directories, no notes, no `mnote.db`. -/
def emptyWorld : World := { disk := { dirs := [], notes := [] }, dbFile := false, index := emptyIndex }

/-- Frontmatter oracle for contents without a `tags` key. -/
def noTags : String → Option (List String) := fun _ => none

/-! ## LockManager

The lock file is `none` (absent) or `some (pid, ts)` — the recorded owner
pid and acquisition timestamp in epoch milliseconds (a lock file whose pid
does not parse is outside the model; the claims concern well-formed
locks).  `running` is the oracle for `isProcessRunning` (signal 0, with
`EPERM` counting as running), `now` the wall clock.  The atomic
`wx`-flagged create always succeeds in this single-actor model (there is
no second writer to lose the race to). -/

/-- `LockManager.tryLock` at time `now`: absent → create; held by a dead
process → stale, force-unlock and create; held by a live process but older
than 10 minutes → stale, force-unlock and create; otherwise held. -/
def tryLock (running : Nat → Bool) (selfPid : Nat) (now : Int)
    (st : Option (Nat × Int)) : Bool × Option (Nat × Int) :=
  match st with
  | none => (true, some (selfPid, now))
  | some (pid, ts) =>
    if running pid then
      if now - ts > 600000 then (true, some (selfPid, now))
      else (false, some (pid, ts))
    else (true, some (selfPid, now))

/-- The retry loop of `LockManager.acquire`, with the wall clock advanced
by the 500ms sleep between attempts.  Returns (acquired?, lock state,
number of `tryLock` attempts made).  `fuel` bounds the recursion; it is
chosen in `acquire` so that the elapsed-time check fires first, making the
fuel-exhaustion case unreachable. -/
def acquireAux (running : Nat → Bool) (selfPid : Nat) (wait : Bool) (timeoutMs : Nat) :
    Option (Nat × Int) → Int → Nat → Nat → Bool × Option (Nat × Int) × Nat
  | st, t, el, fuel =>
    let r := tryLock running selfPid t st
    if r.1 then (true, r.2, 1)
    else if !wait then (false, r.2, 1)
    else if el > timeoutMs then (false, r.2, 1)
    else
      match fuel with
      | 0 => (false, r.2, 1)
      | fuel' + 1 =>
        let rest := acquireAux running selfPid wait timeoutMs r.2 (t + 500) (el + 500) fuel'
        (rest.1, rest.2.1, rest.2.2 + 1)

/-- `LockManager.acquire({wait, timeoutMs})` starting at wall-clock time
`start` with lock state `st`. -/
def acquire (running : Nat → Bool) (selfPid : Nat) (start : Int)
    (st : Option (Nat × Int)) (wait : Bool) (timeoutMs : Nat) :
    Bool × Option (Nat × Int) × Nat :=
  acquireAux running selfPid wait timeoutMs st start 0 (timeoutMs / 500 + 1)

/-! ## Concrete stores used by the claims about search and moves -/

/-- Index with one note containing "database system" and one containing
"raw data dump", built through `indexNote`. -/
def idxSearch : Index :=
  indexNote
    (indexNote emptyIndex "misc" "2024-01-01-db.md" "database system"
      (notePath "misc" "2024-01-01-db.md") none)
    "misc" "2024-01-02-raw.md" "raw data dump" (notePath "misc" "2024-01-02-raw.md") none

/-- Index with three notes whose frontmatter tags are `{red}`, `{blue}`
and `{red, green}`, built through `indexNote` (so the padded tags strings
are the ones the source stores). -/
def idxTags : Index :=
  indexNote
    (indexNote
      (indexNote emptyIndex "b" "n1.md" "one" (notePath "b" "n1.md") (some ["red"]))
      "b" "n2.md" "two" (notePath "b" "n2.md") (some ["blue"]))
    "b" "n3.md" "three" (notePath "b" "n3.md") (some ["red", "green"])

/-- Store with two notes in book "b", used to exhibit the `moveNote`
index re-resolution behaviour. -/
def wMove : World :=
  { disk := { dirs := ["b"], notes := [⟨"b", "a-old.md", "alpha"⟩, ⟨"b", "z-old.md", "zeta"⟩] },
    dbFile := true, index := emptyIndex }

/-- The `(book, filename)` keys of the index rows. -/
def keysOf (idx : Index) : List (String × String) :=
  idx.records.map (fun r => (r.book, r.filename))

/-- The PRIMARY KEY invariant SQLite maintains for the `notes` table: ids
are pairwise distinct and below the AUTOINCREMENT counter. -/
def goodIds (idx : Index) : Prop :=
  (idx.records.map (fun r => r.id)).Nodup ∧ ∀ r ∈ idx.records, r.id < idx.nextId

/-! ## Sanity evaluations of the embedding on concrete inputs -/

example : slugify "  Hello,  World!  " = "hello-world" := by decide
example : derivedTitle "# My Note\nbody" = "My Note" := by decide
example : derivedTitle "\nHello World" = "untitled" := by decide
example : specDeriveTitle "\nHello World" = "Hello World" := by decide
example : tokenize "database system" = ["database", "system"] := by decide
example : tokenize "/home/u/.mnote/misc/2024-01-01-db.md"
    = ["home", "u", "mnote", "misc", "2024", "01", "01", "db", "md"] := by decide
example : getNotes ⟨["b"], [⟨"b", "z.md", "zc"⟩, ⟨"b", "a.md", "ac"⟩, ⟨"b", "x.txt", "t"⟩]⟩ "b"
    = [⟨"a.md", "ac"⟩, ⟨"z.md", "zc"⟩] := by decide
example : addDirs [] "a/b" = ["a", "a/b"] := by decide
example : validBook "../x" = false := by decide
example : acquire (fun _ => false) 7 100 none false 5000 = (true, some (7, 100), 1) := by decide
example : acquire (fun _ => true) 7 100 (some (9, 100)) false 5000
    = (false, some (9, 100), 1) := by decide
example : acquire (fun _ => true) 7 100 (some (9, 100)) true 1000
    = (false, some (9, 100), 4) := by decide

/-- C5: `findNotes` treats an unquoted keyword as a prefix query — the
unquoted keyword "data" matches the note whose content contains
"database" (and the one containing the exact word "data") — while a
keyword carrying explicit quotation marks is matched as an exact phrase,
not a prefix: it matches only the note with the exact word "data", not
the "database" one. -/
theorem claim_C5_prefix_vs_quoted_phrase :
    findNotes idxSearch "data" none none
      = [⟨"misc", "2024-01-01-db.md", "database system"⟩,
         ⟨"misc", "2024-01-02-raw.md", "raw data dump"⟩]
    ∧ findNotes idxSearch "\"data\"" none none
      = [⟨"misc", "2024-01-02-raw.md", "raw data dump"⟩]
    ∧ strHas "database system" "database" = true := by decide

/-- C6: over notes tagged `{red}`, `{blue}`, `{red, green}`, `findNotes`
with tag "red" and no keyword returns exactly the 2 red-tagged notes, tag
"green" exactly the 1 green-tagged note, and the tag prefix "re" matches
none — tag filtering is whole-tag containment, never prefix. -/
theorem claim_C6_tag_filter_exact :
    findNotes idxTags "" none (some "red")
      = [⟨"b", "n1.md", "one"⟩, ⟨"b", "n3.md", "three"⟩]
    ∧ (findNotes idxTags "" none (some "red")).length = 2
    ∧ findNotes idxTags "" none (some "green") = [⟨"b", "n3.md", "three"⟩]
    ∧ (findNotes idxTags "" none (some "green")).length = 1
    ∧ findNotes idxTags "" none (some "re") = [] := by decide

/-- C7 (evaluation at the failing input): `renameBook` on a store where
the source book does not exist does NOT fail — `getBookPath` first
creates the missing directory, so the existence check passes and the call
succeeds, renaming the freshly created empty directory; and in the
`newName`-already-exists failure case the missing `oldName` directory has
still been created as a side effect.  This contradicts the claim (and the
source's own comment stating the check is meant to detect a missing
book). -/
theorem claim_C7_rename_missing_book_succeeds :
    (renameBook emptyWorld "ghost" "fresh" true).1 = .ok ()
    ∧ (renameBook emptyWorld "ghost" "fresh" true).2.disk.dirs = ["fresh"]
    ∧ emptyWorld.disk.dirs = []
    ∧ (renameBook ⟨⟨["target"], []⟩, false, emptyIndex⟩ "ghost" "target" true).1
        = .error "Book \"target\" already exists"
    ∧ (renameBook ⟨⟨["target"], []⟩, false, emptyIndex⟩ "ghost" "target" true).2.disk.dirs
        = ["target", "ghost"] := by decide

/-- C8 counterexample: `checkDB` is not side-effect free — on a store
whose index database file does not exist, the `getDB()` call inside
`checkDB` creates it, so the state after the call differs from the state
before exactly in the database file's existence. -/
theorem claim_C8_counterexample :
    (checkDBRun emptyWorld).2.dbFile = true ∧ emptyWorld.dbFile = false
    ∧ (checkDBRun emptyWorld).2 ≠ emptyWorld := by decide

/-- C8 amended: `checkDB` never changes the note files on disk and never
changes any stored index record — but it does create the index database
file (with the empty schema) when that file does not exist; when the file
already exists the whole state is untouched. -/
theorem claim_C8_checkdb_frame (w : World) :
    (checkDBRun w).2.disk = w.disk
    ∧ (checkDBRun w).2.dbFile = true
    ∧ (checkDBRun w).2.index = (if w.dbFile then w.index else emptyIndex) :=
  ⟨rfl, rfl, rfl⟩

/-- C9 counterexample: with content whose first line is empty but whose
second line is "Hello World", `addNote` derives the title "untitled"
(it consults only the text before the first newline), not the spec's
"first non-empty content line" — the produced filename is
`2026-10-11-untitled.md`, not the `2026-10-11-hello-world.md` the claim
requires. -/
theorem claim_C9_counterexample :
    derivedTitle "\nHello World" = "untitled"
    ∧ specDeriveTitle "\nHello World" = "Hello World"
    ∧ ((addNote emptyWorld "b" "\nHello World" none noTags "2026-10-11" true).2.disk.notes.map
        (fun n => n.filename)) = ["2026-10-11-untitled.md"]
    ∧ ("2026-10-11-" ++ slugify (specDeriveTitle "\nHello World") ++ ".md"
        = "2026-10-11-hello-world.md")
    ∧ "2026-10-11-untitled.md" ≠ "2026-10-11-hello-world.md" := by decide

/-- C9 amended: without an explicit title, `addNote` derives the title
from the FIRST content line only (the text before the first newline),
stripped of leading whitespace/markup characters, falling back to
"untitled" when that stripped first line is empty (later non-empty lines
are ignored); the filename is `YYYY-MM-DD-<slug>.md`, and same-day
collisions on the same slug get `-1`, `-2`, … — three adds with the same
derived title yield three distinct filenames with exactly one
unsuffixed. -/
theorem claim_C9_amended :
    (let w1 := (addNote emptyWorld "b" "\nHello World" none noTags "2026-10-11" true).2
     let w2 := (addNote w1 "b" "\nHello World" none noTags "2026-10-11" true).2
     let w3 := (addNote w2 "b" "\nHello World" none noTags "2026-10-11" true).2
     w3.disk.notes.map (fun n => n.filename)
       = ["2026-10-11-untitled.md", "2026-10-11-untitled-1.md", "2026-10-11-untitled-2.md"]
     ∧ (w3.disk.notes.map (fun n => n.filename)).Nodup)
    ∧ ((addNote emptyWorld "b" "# My Note\nbody" none noTags "2026-10-11" true).2.disk.notes.map
        (fun n => n.filename)) = ["2026-10-11-my-note.md"]
    ∧ ((addNote emptyWorld "b" "body" (some "Custom Title") noTags "2026-10-11" true).2.disk.notes.map
        (fun n => n.filename)) = ["2026-10-11-custom-title.md"] := by decide

/-- C10: `moveNote(book, index, targetBook)` re-resolves the 1-based index
after the copy is added; moving note 1 of book "b" (file `a-old.md`) into
the same book adds the fresh copy `2026-10-11-alpha.md`, which sorts
before `a-old.md`, so the delete step removes the fresh copy instead of
the copied note — here the net effect is that the book's files are
exactly as before the move and `a-old.md` was never deleted. -/
theorem claim_C10_move_same_book_reresolved_index :
    (getNote wMove "b" 1).1 = .ok ("a-old.md", "alpha", notePath "b" "a-old.md")
    ∧ (let w1 := (getNote wMove "b" 1).2
       let w2 := (addNote w1 "b" "alpha" none noTags "2026-10-11" true).2
       (getNotes w2.disk "b").map (fun n => n.filename)
         = ["2026-10-11-alpha.md", "a-old.md", "z-old.md"]
       ∧ (deleteNote w2 "b" 1 true).1 = .ok "2026-10-11-alpha.md")
    ∧ "2026-10-11-alpha.md" ≠ "a-old.md"
    ∧ (moveNote wMove "b" 1 "b" noTags "2026-10-11" true).1 = .ok ()
    ∧ ((moveNote wMove "b" 1 "b" noTags "2026-10-11" true).2.disk.notes.map
        (fun n => n.filename)) = ["a-old.md", "z-old.md"] := by decide

/-- C3: an `acquire` call that finds a lock whose recorded owner process
is no longer running, or whose age exceeds 10 minutes, treats it as
stale, forcibly removes it, and succeeds within that same call — a single
`tryLock` attempt, even with `wait = false` — leaving the lock owned by
the caller. -/
theorem claim_C3_stale_lock_takeover (running : Nat → Bool) (selfPid pid : Nat)
    (now ts : Int) (timeoutMs : Nat)
    (h : running pid = false ∨ now - ts > 600000) :
    acquire running selfPid now (some (pid, ts)) false timeoutMs
      = (true, some (selfPid, now), 1) := by
  have htl : tryLock running selfPid now (some (pid, ts)) = (true, some (selfPid, now)) := by
    rcases h with h | h
    · simp [tryLock, h]
    · by_cases hr : running pid
      · simp [tryLock, hr, h]
      · simp [tryLock, hr]
  simp [acquire, acquireAux, htl]

/-- Witness for C3: a lock owned by dead process 42 is taken over by
process 7 in one non-waiting acquire call. -/
theorem claim_C3_stale_lock_takeover_witness :
    acquire (fun _ => false) 7 100 (some (42, 0)) false 5000 = (true, some (7, 100), 1) :=
  claim_C3_stale_lock_takeover (fun _ => false) 7 42 100 0 5000 (Or.inl rfl)

/-- `tryLock` fails against a lock validly held by a live other process
(owner running, age within the 10-minute threshold) and leaves the lock
untouched. -/
theorem tryLock_held (running : Nat → Bool) (selfPid pid : Nat) (t ts : Int)
    (hrun : running pid = true) (hage : t - ts ≤ 600000) :
    tryLock running selfPid t (some (pid, ts)) = (false, some (pid, ts)) := by
  simp only [tryLock, hrun, if_true]
  rw [if_neg (by omega)]

/-- The waiting retry loop against a lock that stays validly held: every
attempt fails, the loop stops at the first attempt whose elapsed time
exceeds `timeoutMs`, and the attempt count comes out exactly. -/
theorem acquireAux_held (running : Nat → Bool) (selfPid pid : Nat) (start ts : Int)
    (timeoutMs : Nat) (hrun : running pid = true)
    (hage : ∀ j : Nat, j ≤ timeoutMs / 500 + 1 → start + 500 * (j : Int) - ts ≤ 600000) :
    ∀ fuel j, j + fuel = timeoutMs / 500 + 1 →
      acquireAux running selfPid true timeoutMs (some (pid, ts))
          (start + 500 * (j : Int)) (500 * j) fuel
        = (false, some (pid, ts), fuel + 1) := by
  intro fuel
  induction fuel with
  | zero =>
    intro j hj
    have htl := tryLock_held running selfPid pid (start + 500 * (j : Int)) ts hrun
      (by have := hage j (by omega); omega)
    simp [acquireAux, htl, ite_self]
  | succ fuel ih =>
    intro j hj
    have htl := tryLock_held running selfPid pid (start + 500 * (j : Int)) ts hrun
      (by have := hage j (by omega); omega)
    have hel : ¬(500 * j > timeoutMs) := by
      have h1 : timeoutMs / 500 * 500 ≤ timeoutMs := Nat.div_mul_le_self _ _
      omega
    have harg1 : start + 500 * (j : Int) + 500 = start + 500 * ((j + 1 : Nat) : Int) := by
      push_cast; ring
    have harg2 : 500 * j + 500 = 500 * (j + 1) := by ring
    simp only [acquireAux, htl, Bool.not_true, if_neg hel, Bool.false_eq_true, if_false]
    rw [harg1, harg2, ih (j + 1) (by omega)]

/-- C4: against a lock validly held by another live process (owner
running, age within the 10-minute staleness threshold throughout the
window), `acquire` with `wait = false` returns not-acquired after a
single `tryLock` attempt — no polling; `acquire` with `wait = true`
terminates with not-acquired after exactly `timeoutMs / 500 + 2`
attempts, i.e. it polls at 500ms granularity and stops at the first
attempt past the timeout, never blocking beyond the caller's timeout by
more than the final 500ms poll.  The lock is left untouched in both
cases. -/
theorem claim_C4_acquire_no_wait_and_bounded_wait (running : Nat → Bool)
    (selfPid pid : Nat) (start ts : Int) (timeoutMs : Nat)
    (hrun : running pid = true)
    (hage : ∀ j : Nat, j ≤ timeoutMs / 500 + 1 → start + 500 * (j : Int) - ts ≤ 600000) :
    acquire running selfPid start (some (pid, ts)) false timeoutMs
      = (false, some (pid, ts), 1)
    ∧ acquire running selfPid start (some (pid, ts)) true timeoutMs
      = (false, some (pid, ts), timeoutMs / 500 + 2) := by
  have htl0 := tryLock_held running selfPid pid start ts hrun
    (by have := hage 0 (by omega); simp at this; omega)
  constructor
  · simp [acquire, acquireAux, htl0]
  · have h := acquireAux_held running selfPid pid start ts timeoutMs hrun hage
      (timeoutMs / 500 + 1) 0 (by omega)
    simp only [Nat.cast_zero, mul_zero, add_zero, Nat.mul_zero] at h
    rw [acquire, h]

/-- Witness for C4: lock held by live process 42 since time 0; at start
time 0 with a 1000ms timeout, the non-waiting acquire fails after one
attempt and the waiting acquire fails after 4 attempts (1000/500 + 2). -/
theorem claim_C4_acquire_no_wait_and_bounded_wait_witness :
    acquire (fun p => decide (p = 42)) 7 0 (some (42, 0)) false 1000
      = (false, some (42, 0), 1)
    ∧ acquire (fun p => decide (p = 42)) 7 0 (some (42, 0)) true 1000
      = (false, some (42, 0), 4) :=
  claim_C4_acquire_no_wait_and_bounded_wait (fun p => decide (p = 42)) 7 42 0 0 1000
    (by decide) (by decide)

/-- C1: for each filesystem-mutating note-store operation (`addNote`,
`updateNote`, `deleteNote`, `renameBook`), a failure of the subsequent
search-index update (`indexNote` / `unindexNote` / `updateBookInDb`) is
caught at the call site: whenever the operation succeeds with a working
index (`idxOk = true`), the same call with a failing index
(`idxOk = false`) still returns successfully (for `deleteNote`, with the
same returned filename), produces exactly the same filesystem state —
the file write is never rolled back — and leaves the index exactly as it
was before the call; the index error is never propagated. -/
theorem claim_C1_index_failure_isolated :
    (∀ (w : World) (book content : String) (titleOpt : Option String)
        (fm : String → Option (List String)) (today : String),
      exceptOk (addNote w book content titleOpt fm today true).1 = true →
        exceptOk (addNote w book content titleOpt fm today false).1 = true
        ∧ (addNote w book content titleOpt fm today false).2.disk
            = (addNote w book content titleOpt fm today true).2.disk
        ∧ (addNote w book content titleOpt fm today false).2.index = w.index)
    ∧ (∀ (w : World) (book filename content : String)
        (fm : String → Option (List String)),
      exceptOk (updateNote w book filename content fm true).1 = true →
        exceptOk (updateNote w book filename content fm false).1 = true
        ∧ (updateNote w book filename content fm false).2.disk
            = (updateNote w book filename content fm true).2.disk
        ∧ (updateNote w book filename content fm false).2.index = w.index)
    ∧ (∀ (w : World) (book : String) (index : Nat),
      exceptOk (deleteNote w book index true).1 = true →
        exceptOk (deleteNote w book index false).1 = true
        ∧ (deleteNote w book index false).1 = (deleteNote w book index true).1
        ∧ (deleteNote w book index false).2.disk = (deleteNote w book index true).2.disk
        ∧ (deleteNote w book index false).2.index = w.index)
    ∧ (∀ (w : World) (oldName newName : String),
      exceptOk (renameBook w oldName newName true).1 = true →
        exceptOk (renameBook w oldName newName false).1 = true
        ∧ (renameBook w oldName newName false).2.disk
            = (renameBook w oldName newName true).2.disk
        ∧ (renameBook w oldName newName false).2.index = w.index) := by
  refine ⟨?_, ?_, ?_, ?_⟩
  · intro w book content titleOpt fm today h
    cases hgb : getBookPath w.disk.dirs book with
    | error e => simp [addNote, hgb, exceptOk] at h
    | ok dirs2 => simp [addNote, hgb, exceptOk]
  · intro w book filename content fm h
    cases hgb : getBookPath w.disk.dirs book with
    | error e => simp [updateNote, hgb, exceptOk] at h
    | ok dirs2 => simp [updateNote, hgb, exceptOk]
  · intro w book index h
    by_cases hidx : index < 1 ∨ index > (getNotes w.disk book).length
    · simp only [deleteNote] at h
      rw [if_pos hidx] at h
      simp [exceptOk] at h
    · cases hgb : getBookPath w.disk.dirs book with
      | error e =>
        simp only [deleteNote] at h
        rw [if_neg hidx, hgb] at h
        simp [exceptOk] at h
      | ok dirs2 =>
        simp only [deleteNote]
        rw [if_neg hidx, if_neg hidx, hgb]
        simp [exceptOk]
  · intro w oldName newName h
    cases hgb : getBookPath w.disk.dirs oldName with
    | error e => simp [renameBook, hgb, exceptOk] at h
    | ok dirs2 =>
      by_cases hc1 : oldName ∈ dirs2
      · by_cases hc2 : newName ∈ dirs2
        · simp [renameBook, hgb, hc1, hc2, exceptOk] at h
        · simp [renameBook, hgb, hc1, hc2, exceptOk]
      · simp [renameBook, hgb, hc1, exceptOk] at h

/-- Witness for C1: each of the four mutations applied at a concrete
store with a failing index update still succeeds, with the file effect
intact and the index untouched. -/
theorem claim_C1_index_failure_isolated_witness :
    (exceptOk (addNote emptyWorld "b" "hi" none noTags "2026-10-11" false).1 = true
      ∧ (addNote emptyWorld "b" "hi" none noTags "2026-10-11" false).2.disk
          = (addNote emptyWorld "b" "hi" none noTags "2026-10-11" true).2.disk
      ∧ (addNote emptyWorld "b" "hi" none noTags "2026-10-11" false).2.index
          = emptyWorld.index)
    ∧ (exceptOk (updateNote wMove "b" "a-old.md" "new body" noTags false).1 = true
      ∧ (updateNote wMove "b" "a-old.md" "new body" noTags false).2.disk
          = (updateNote wMove "b" "a-old.md" "new body" noTags true).2.disk
      ∧ (updateNote wMove "b" "a-old.md" "new body" noTags false).2.index = wMove.index)
    ∧ (exceptOk (deleteNote wMove "b" 1 false).1 = true
      ∧ (deleteNote wMove "b" 1 false).1 = (deleteNote wMove "b" 1 true).1
      ∧ (deleteNote wMove "b" 1 false).2.disk = (deleteNote wMove "b" 1 true).2.disk
      ∧ (deleteNote wMove "b" 1 false).2.index = wMove.index)
    ∧ (exceptOk (renameBook wMove "b" "c" false).1 = true
      ∧ (renameBook wMove "b" "c" false).2.disk = (renameBook wMove "b" "c" true).2.disk
      ∧ (renameBook wMove "b" "c" false).2.index = wMove.index) :=
  ⟨claim_C1_index_failure_isolated.1 emptyWorld "b" "hi" none noTags "2026-10-11" (by decide),
   claim_C1_index_failure_isolated.2.1 wMove "b" "a-old.md" "new body" noTags (by decide),
   claim_C1_index_failure_isolated.2.2.1 wMove "b" 1 (by decide),
   claim_C1_index_failure_isolated.2.2.2 wMove "b" "c" (by decide)⟩

/-! ## Rebuild idempotence and consistency (C2) -/

/-- A filter whose predicate fails on every element yields `[]`. -/
theorem filterFalseNil (p : α → Bool) :
    ∀ l : List α, (∀ a ∈ l, p a = false) → l.filter p = []
  | [], _ => rfl
  | a :: l, h => by
    have := h a (List.mem_cons_self a l)
    simp only [List.filter, this]
    exact filterFalseNil p l (fun b hb => h b (List.mem_cons_of_mem a hb))

theorem goodIds_empty : goodIds emptyIndex :=
  ⟨List.nodup_nil, by intro r hr; simp [emptyIndex] at hr⟩

/-- `indexNote` preserves the primary-key invariant: an update keeps all
ids, an insert appends the fresh id `nextId`. -/
theorem indexNote_goodIds (idx : Index) (b f c p : String) (t : Option (List String))
    (h : goodIds idx) : goodIds (indexNote idx b f c p t) := by
  cases hf : idx.records.find? (fun r => r.book == b && r.filename == f) with
  | some r0 =>
    have hred : indexNote idx b f c p t =
        { records := idx.records.map (fun r =>
            if r.id == r0.id then
              { r with book := b, filename := f, content := c, tags := tagsStrOf t }
            else r),
          nextId := idx.nextId } := by
      unfold indexNote; rw [hf]
    rw [hred]
    constructor
    · have hcong : ∀ r ∈ idx.records,
          ((fun r : IndexRecord => r.id) ∘ (fun r =>
            if r.id == r0.id then
              { r with book := b, filename := f, content := c, tags := tagsStrOf t }
            else r)) r = r.id := by
        intro r _
        by_cases hid : r.id = r0.id <;> simp [hid]
      rw [List.map_map, List.map_congr_left hcong]
      exact h.1
    · intro r hr
      simp only [List.mem_map] at hr
      obtain ⟨s, hs, rfl⟩ := hr
      by_cases hid : s.id = r0.id
      · have := h.2 s hs
        simp only [hid, beq_self_eq_true, if_true]
        exact hid ▸ this
      · simp only [hid]
        simp [hid]
        exact h.2 s hs
  | none =>
    have hred : indexNote idx b f c p t =
        { records := idx.records ++
            [{ id := idx.nextId, book := b, filename := f, path := p, content := c,
               tags := tagsStrOf t }],
          nextId := idx.nextId + 1 } := by
      unfold indexNote; rw [hf]
    rw [hred]
    constructor
    · simp only [List.map_append, List.map_cons, List.map_nil]
      rw [List.nodup_append]
      refine ⟨h.1, List.nodup_singleton _, ?_⟩
      intro a ha hb
      simp at hb
      obtain ⟨s, hs, hsa⟩ := List.mem_map.mp ha
      have := h.2 s hs
      omega
    · intro r hr
      rcases List.mem_append.mp hr with hr | hr
      · exact Nat.lt_succ_of_lt (h.2 r hr)
      · simp at hr
        rw [hr]
        exact Nat.lt_succ_self _

/-- Effect of `indexNote` on the key set: an update leaves the key list
unchanged (the hit row already has key `(b, f)`), an insert appends
`(b, f)`. -/
theorem indexNote_keys (idx : Index) (b f c p : String) (t : Option (List String))
    (h : goodIds idx) (k : String × String) :
    k ∈ keysOf (indexNote idx b f c p t) ↔ k ∈ keysOf idx ∨ k = (b, f) := by
  cases hf : idx.records.find? (fun r => r.book == b && r.filename == f) with
  | none =>
    have hred : indexNote idx b f c p t =
        { records := idx.records ++
            [{ id := idx.nextId, book := b, filename := f, path := p, content := c,
               tags := tagsStrOf t }],
          nextId := idx.nextId + 1 } := by
      unfold indexNote; rw [hf]
    rw [hred]
    simp [keysOf]
  | some r0 =>
    have hred : indexNote idx b f c p t =
        { records := idx.records.map (fun r =>
            if r.id == r0.id then
              { r with book := b, filename := f, content := c, tags := tagsStrOf t }
            else r),
          nextId := idx.nextId } := by
      unfold indexNote; rw [hf]
    rw [hred]
    have hp := List.find?_some hf
    have hmem := List.mem_of_find?_eq_some hf
    simp only [Bool.and_eq_true, beq_iff_eq] at hp
    have hkeys : (idx.records.map (fun r =>
        if r.id == r0.id then
          { r with book := b, filename := f, content := c, tags := tagsStrOf t }
        else r)).map (fun r => (r.book, r.filename))
        = idx.records.map (fun r => (r.book, r.filename)) := by
      rw [List.map_map]
      apply List.map_congr_left
      intro r hr
      by_cases hid : r.id = r0.id
      · have hrr0 : r = r0 := List.inj_on_of_nodup_map h.1 hr hmem (by simp [hid])
        simp [hid, hrr0, hp.1, hp.2]
      · simp [hid]
    show k ∈ (idx.records.map _).map _ ↔ _
    rw [hkeys]
    constructor
    · exact fun hk => Or.inl hk
    · rintro (hk | rfl)
      · exact hk
      · exact List.mem_map.mpr ⟨r0, hmem, by rw [hp.1, hp.2]⟩

theorem fold_goodIds (fm : String → Option (List String)) :
    ∀ (l : List (String × NoteEntry)) (acc : Index), goodIds acc →
      goodIds (l.foldl (indexStep fm) acc)
  | [], _, h => h
  | e :: l, acc, h =>
    fold_goodIds fm l (indexStep fm acc e) (indexNote_goodIds acc _ _ _ _ _ h)

/-- Key-set of the re-indexing fold: exactly the keys of the accumulator
plus the keys of the walked entries. -/
theorem fold_keys (fm : String → Option (List String)) :
    ∀ (l : List (String × NoteEntry)) (acc : Index), goodIds acc → ∀ k,
      (k ∈ keysOf (l.foldl (indexStep fm) acc) ↔
        k ∈ keysOf acc ∨ k ∈ l.map (fun e => (e.1, e.2.filename))) := by
  intro l
  induction l with
  | nil => intro acc _ k; simp
  | cons e l ih =>
    intro acc h k
    rw [List.foldl_cons, ih (indexStep fm acc e) (indexNote_goodIds acc _ _ _ _ _ h) k]
    unfold indexStep
    rw [indexNote_keys acc _ _ _ _ _ h k]
    simp only [List.map_cons, List.mem_cons]
    tauto

/-- The keys of a rebuilt index are exactly the keys of the disk walk. -/
theorem rebuildDB_keys (prev : Index) (d : Disk) (fm : String → Option (List String))
    (k : String × String) :
    k ∈ keysOf (rebuildDB prev d fm) ↔ k ∈ (entriesOf d).map (fun e => (e.1, e.2.filename)) := by
  unfold rebuildDB
  rw [fold_keys fm (entriesOf d) emptyIndex goodIds_empty k]
  simp [keysOf, emptyIndex]

/-- After a rebuild, every disk entry's key is present in the database. -/
theorem rebuildDB_missingInDB (prev : Index) (d : Disk) (fm : String → Option (List String)) :
    missingInDBOf d (rebuildDB prev d fm) = [] := by
  have hfil : (entriesOf d).filter
      (fun e => !(((rebuildDB prev d fm).records.map (fun r => strKey r.book r.filename)).any
        (fun s => s == strKey e.1 e.2.filename))) = [] := by
    apply filterFalseNil
    intro e he
    have hk : (e.1, e.2.filename) ∈ keysOf (rebuildDB prev d fm) :=
      (rebuildDB_keys prev d fm _).mpr (List.mem_map_of_mem _ he)
    obtain ⟨r, hr, hrk⟩ := List.mem_map.mp hk
    have hmem : strKey e.1 e.2.filename ∈
        (rebuildDB prev d fm).records.map (fun r => strKey r.book r.filename) :=
      List.mem_map.mpr ⟨r, hr, by
        rw [show r.book = e.1 from congrArg Prod.fst hrk,
          show r.filename = e.2.filename from congrArg Prod.snd hrk]⟩
    simp only [Bool.not_eq_false', List.any_eq_true]
    exact ⟨_, hmem, by simp⟩
  unfold missingInDBOf
  rw [hfil]
  rfl

/-- After a rebuild, every database row's key is present on disk. -/
theorem rebuildDB_missingOnDisk (prev : Index) (d : Disk) (fm : String → Option (List String)) :
    missingOnDiskOf d (rebuildDB prev d fm) = [] := by
  have hfil : (rebuildDB prev d fm).records.filter
      (fun r => !(((entriesOf d).map (fun e => strKey e.1 e.2.filename)).any
        (fun s => s == strKey r.book r.filename))) = [] := by
    apply filterFalseNil
    intro r hr
    have hk : (r.book, r.filename) ∈ keysOf (rebuildDB prev d fm) :=
      List.mem_map_of_mem _ hr
    obtain ⟨e, he, hek⟩ := List.mem_map.mp ((rebuildDB_keys prev d fm _).mp hk)
    have hmem : strKey r.book r.filename ∈
        (entriesOf d).map (fun e => strKey e.1 e.2.filename) :=
      List.mem_map.mpr ⟨e, he, by
        rw [show e.1 = r.book from congrArg Prod.fst hek,
          show e.2.filename = r.filename from congrArg Prod.snd hek]⟩
    simp only [Bool.not_eq_false', List.any_eq_true]
    exact ⟨_, hmem, by simp⟩
  unfold missingOnDiskOf
  rw [hfil]
  rfl

/-- The consistency check passes for any rebuilt index. -/
theorem rebuild_checkDB_consistent (d : Disk) (fm : String → Option (List String))
    (prev : Index) : (checkDB d (rebuildDB prev d fm)).status = DBStatus.consistent := by
  simp [checkDB, rebuildDB_missingInDB, rebuildDB_missingOnDisk]

/-- C2: running `rebuildDB` twice in a row over the same on-disk note
store yields an index with the same record count after each run — the
rebuild clears all records and the identity counter first, so its result
is a function of the disk alone — and `checkDB()` reports consistent
after either run, for every disk and every frontmatter content. -/
theorem claim_C2_rebuild_idempotent (prev : Index) (d : Disk)
    (fm : String → Option (List String)) :
    (rebuildDB prev d fm).records.length
      = (rebuildDB (rebuildDB prev d fm) d fm).records.length
    ∧ (checkDB d (rebuildDB prev d fm)).status = DBStatus.consistent
    ∧ (checkDB d (rebuildDB (rebuildDB prev d fm) d fm)).status = DBStatus.consistent :=
  ⟨rfl, rebuild_checkDB_consistent d fm prev, rebuild_checkDB_consistent d fm _⟩
